import Mathlib

/-!
Verification of the numerical core of three physics-education simulations:
a physical pendulum (simulations/physical-pendulum/script.js), a projectile
on an inclined air table, and a coupled spring-cylinder-pendulum apparatus.
Numbers are modelled as exact rationals; the one JavaScript semantic that the
claims hinge on, division by zero producing NaN or an infinity, is modelled
explicitly by the type JSVal.  Transcendental functions (Math.sin, Math.cos)
are abstracted as function parameters where the proved properties hold for
every choice of that function, in particular for the true sine and cosine;
the theoretical-period formula is modelled directly over the reals.
-/

namespace JSNum

/-- Value of a JavaScript number: an exact rational, NaN, or a signed
infinity.  Used where the source can divide by zero. -/
inductive JSVal where
  | num : ℚ → JSVal
  | nan : JSVal
  | inf : JSVal
  | ninf : JSVal
deriving DecidableEq, Repr

open JSVal

/-- JavaScript unary minus. -/
def jsNeg : JSVal → JSVal
  | num q => num (-q)
  | nan => nan
  | inf => ninf
  | ninf => inf

/-- JavaScript addition on numbers, NaN and infinities. -/
def jsAdd : JSVal → JSVal → JSVal
  | nan, _ => nan
  | _, nan => nan
  | num a, num b => num (a + b)
  | inf, ninf => nan
  | ninf, inf => nan
  | inf, _ => inf
  | _, inf => inf
  | ninf, _ => ninf
  | _, ninf => ninf

/-- JavaScript subtraction. -/
def jsSub (a b : JSVal) : JSVal := jsAdd a (jsNeg b)

/-- JavaScript multiplication. -/
def jsMul : JSVal → JSVal → JSVal
  | nan, _ => nan
  | _, nan => nan
  | num a, num b => num (a * b)
  | inf, num b => if b = 0 then nan else if 0 < b then inf else ninf
  | num a, inf => if a = 0 then nan else if 0 < a then inf else ninf
  | ninf, num b => if b = 0 then nan else if 0 < b then ninf else inf
  | num a, ninf => if a = 0 then nan else if 0 < a then ninf else inf
  | inf, inf => inf
  | inf, ninf => ninf
  | ninf, inf => ninf
  | ninf, ninf => inf

/-- JavaScript division; `0 / 0` is NaN and `a / 0` for nonzero `a` is a
signed infinity. -/
def jsDiv : JSVal → JSVal → JSVal
  | nan, _ => nan
  | _, nan => nan
  | num a, num b =>
      if b = 0 then (if a = 0 then nan else if 0 < a then inf else ninf)
      else num (a / b)
  | inf, num b => if 0 ≤ b then inf else ninf
  | ninf, num b => if 0 ≤ b then ninf else inf
  | num _, inf => num 0
  | num _, ninf => num 0
  | inf, inf => nan
  | inf, ninf => nan
  | ninf, inf => nan
  | ninf, ninf => nan

/-- JavaScript squaring, `v ** 2`. -/
def jsSq (v : JSVal) : JSVal := jsMul v v

end JSNum

namespace Regression

open JSNum JSVal

/-- Result record of linearRegression: slope, intercept and R squared as
JavaScript numbers. -/
structure RegResult where
  slope : JSVal
  intercept : JSVal
  r2 : JSVal
deriving DecidableEq, Repr

/-- Shallow embedding of linearRegression from
simulations/physical-pendulum/script.js (the copy in the centripetal file is
identical except that it lacks the size guard).  The two input arrays are
read pairwise, so the loop over `i < xData.length` is modelled by zipping;
all sums are exact rationals, and the slope, intercept and R-squared
divisions use the JavaScript semantics of JSVal. -/
def linearRegression (xData yData : List ℚ) : Option RegResult :=
  let n : ℚ := xData.length
  if xData.length < 2 then none else
  let p := xData.zip yData
  let sumX := (p.map (fun q => q.1)).sum
  let sumY := (p.map (fun q => q.2)).sum
  let sumXY := (p.map (fun q => q.1 * q.2)).sum
  let sumX2 := (p.map (fun q => q.1 * q.1)).sum
  let slope := jsDiv (num (n * sumXY - sumX * sumY)) (num (n * sumX2 - sumX * sumX))
  let intercept := jsDiv (jsSub (num sumY) (jsMul slope (num sumX))) (num n)
  let yMean := sumY / n
  let ssTotal := (p.map (fun q => (q.2 - yMean) ^ 2)).sum
  let ssResidual :=
    (p.map (fun q => jsSq (jsSub (num q.2) (jsAdd (jsMul slope (num q.1)) intercept)))).foldl
      jsAdd (num 0)
  let r2 := jsSub (num 1) (jsDiv ssResidual (num ssTotal))
  some ⟨slope, intercept, r2⟩

end Regression

namespace Pendulum

/-- Gravitational acceleration used by the pendulum file, in cm per second
squared. -/
def gQ : ℚ := 980

/-- Total ruler length in cm. -/
def rulerLength : ℚ := 100

/-- Moment of inertia of the ruler about the pivot divided by the mass:
I over m equals L squared over 12 plus h squared. -/
def getMomentOfInertia (h : ℚ) : ℚ := rulerLength * rulerLength / 12 + h * h

/-- Real-valued copy of getMomentOfInertia, used by the theoretical period. -/
noncomputable def getMomentOfInertiaR (h : ℝ) : ℝ := 100 * 100 / 12 + h * h

/-- Theoretical period of the physical pendulum,
T = 2 pi sqrt of (I over m divided by g h), from getTheoreticalPeriod. -/
noncomputable def getTheoreticalPeriod (h : ℝ) : ℝ :=
  2 * Real.pi * Real.sqrt (getMomentOfInertiaR h / (980 * h))

end Pendulum

namespace Pendulum

/-- State of the pendulum simulation: the module-level variables of the
pendulum script that the physics loop reads and writes. -/
structure PendState where
  angle : ℚ
  angularVelocity : ℚ
  completedPeriods : ℕ
  hasStartedSwinging : Bool
  simulationTime : ℚ
deriving DecidableEq, Repr

/-- Angular acceleration of the bar, minus (g h over I) sin theta, from
getAngularAcceleration.  Math.sin is abstracted as the parameter sin; every
theorem below holds for all choices of that parameter. -/
def getAngularAcceleration (sin : ℚ → ℚ) (theta h : ℚ) : ℚ :=
  -(gQ * h / getMomentOfInertia h) * sin theta

/-- One classical RK4 step for (angle, angularVelocity), exactly the k1-k4
scheme of updatePhysics in the pendulum script. -/
def rk4 (sin : ℚ → ℚ) (h dt theta omega : ℚ) : ℚ × ℚ :=
  let k1v := getAngularAcceleration sin theta h
  let k1x := omega
  let k2v := getAngularAcceleration sin (theta + 0.5 * dt * k1x) h
  let k2x := omega + 0.5 * dt * k1v
  let k3v := getAngularAcceleration sin (theta + 0.5 * dt * k2x) h
  let k3x := omega + 0.5 * dt * k2v
  let k4v := getAngularAcceleration sin (theta + dt * k3x) h
  let k4x := omega + dt * k3v
  (theta + dt / 6 * (k1x + 2 * k2x + 2 * k3x + k4x),
   omega + dt / 6 * (k1v + 2 * k2v + 2 * k3v + k4v))

/-- Shallow embedding of updatePhysics from the pendulum script: RK4 update,
then the swing-start flag, then the period-counting turning-point test. -/
def updatePhysics (sin : ℚ → ℚ) (h dt : ℚ) (s : PendState) : PendState :=
  let velocityBeforeUpdate := s.angularVelocity
  let p := rk4 sin h dt s.angle s.angularVelocity
  let started := if 0.001 < |p.2| then true else s.hasStartedSwinging
  let completed :=
    if started = true ∧ 0 < velocityBeforeUpdate ∧ p.2 ≤ 0 ∧ 0 < p.1
    then s.completedPeriods + 1 else s.completedPeriods
  { s with
    angle := p.1
    angularVelocity := p.2
    hasStartedSwinging := started
    completedPeriods := completed }

/-- Fixed physics micro-step of the pendulum animation loop, 0.0005 s. -/
def animateDt : ℚ := 0.0005

/-- JavaScript Math.round: round half toward positive infinity. -/
def jsRound (q : ℚ) : ℤ := ⌊q + 1 / 2⌋

/-- One iteration of the animation for-loop body: updatePhysics plus the
simulationTime accumulation. -/
def subStep (sin : ℚ → ℚ) (h : ℚ) (s : PendState) : PendState :=
  let s1 := updatePhysics sin h animateDt s
  { s1 with simulationTime := s1.simulationTime + animateDt }

/-- Physics portion of one call of animate in the pendulum script: divide the
elapsed frame interval by the fixed micro-step, round, cap at 100, and run
that many sub-steps. -/
def animate (sin : ℚ → ℚ) (h frameElapsed : ℚ) (s : PendState) : PendState :=
  let steps := jsRound (frameElapsed / animateDt)
  let maxSteps : ℤ := 100
  let actualSteps := min steps maxSteps
  (fun st => subStep sin h st)^[actualSteps.toNat] s

end Pendulum

namespace Projectile

/-- Drawing scale of the air-table script: 5 pixels per cm. -/
def pixelsPerCm : ℚ := 5

/-- Puck radius in pixels. -/
def puckRadius : ℚ := 15

/-- Puck radius converted to cm; this is the boundary margin. -/
def puckRadiusCm : ℚ := puckRadius / pixelsPerCm

/-- Fixed per-run configuration of the projectile simulation.  The field ay
is the downhill acceleration g sin(slope), precomputed as a rational
parameter because Math.sin of the slope angle is transcendental; slopeAccel
below is the real-valued source formula and ties concrete choices of ay to
concrete slope angles. -/
structure Config where
  ay : ℚ
  tableWidth : ℚ
  tableHeight : ℚ
deriving DecidableEq, Repr

/-- Downhill acceleration of the air-table script over the reals:
g sin(slopeAngle in radians). -/
noncomputable def slopeAccel (slopeAngle : ℝ) : ℝ :=
  980 * Real.sin (slopeAngle * Real.pi / 180)

/-- State of the projectile simulation: the module-level variables that the
physics and animation code of the air-table script read and write.  The
field bounces is specification instrumentation only: it counts boundary
reflections and is written exactly when a clamp-and-reflect branch of
updatePhysics fires. -/
structure PState where
  puckX : ℚ
  puckY : ℚ
  puckVx : ℚ
  puckVy : ℚ
  isAnimating : Bool
  launchX : ℚ
  launchY : ℚ
  hasMovedFromStart : Bool
  trajectoryComplete : Bool
  minY : ℚ
  maxHeight : ℚ
  finalX : ℚ
  flightTime : ℚ
  simulationTime : ℚ
  reachedMaxHeight : Bool
  timeToMaxHeight : ℚ
  bounces : ℕ
deriving DecidableEq, Repr

/-- Shallow embedding of updatePhysics from the air-table script:
semi-implicit Euler (velocity then position), then the four sequential
boundary checks, each clamping the position to the margin and reflecting the
corresponding velocity component scaled by 0.8. -/
def updatePhysics (cfg : Config) (dt : ℚ) (s : PState) : PState :=
  let ax : ℚ := 0
  let vx := s.puckVx + ax * dt
  let vy := s.puckVy + cfg.ay * dt
  let x := s.puckX + vx * dt
  let y := s.puckY + vy * dt
  let margin := puckRadiusCm
  let hitL := x < margin
  let x1 := if hitL then margin else x
  let vx1 := if hitL then -vx * 0.8 else vx
  let hitR := x1 > cfg.tableWidth - margin
  let x2 := if hitR then cfg.tableWidth - margin else x1
  let vx2 := if hitR then -vx1 * 0.8 else vx1
  let hitT := y < margin
  let y1 := if hitT then margin else y
  let vy1 := if hitT then -vy * 0.8 else vy
  let hitB := y1 > cfg.tableHeight - margin
  let y2 := if hitB then cfg.tableHeight - margin else y1
  let vy2 := if hitB then -vy1 * 0.8 else vy1
  { s with
    puckX := x2
    puckY := y2
    puckVx := vx2
    puckVy := vy2
    bounces := s.bounces + (if hitL then 1 else 0) + (if hitR then 1 else 0)
      + (if hitT then 1 else 0) + (if hitB then 1 else 0) }

/-- Physics sub-step count per animation frame in the air-table script. -/
def physicsSteps : ℕ := 10

/-- Result of the ten physics sub-steps of one animation frame. -/
def framePhysics (cfg : Config) (frameDt : ℚ) (s : PState) : PState :=
  (fun st => updatePhysics cfg (frameDt / 10) st)^[physicsSteps] s

/-- Clock stage of animate: simulationTime is advanced by the elapsed frame
interval; the argument newTime is the already-accumulated value. -/
def frameClock (newTime : ℚ) (t : PState) : PState :=
  { t with simulationTime := newTime }

/-- Apex-detection stage of animate: record the time to maximum height when
the vertical velocity has just changed sign from negative to non-negative.
The argument prevVy is the vertical velocity sampled before the physics
sub-steps. -/
def frameApex (prevVy : ℚ) (t : PState) : PState :=
  if t.reachedMaxHeight = false ∧ prevVy < 0 ∧ 0 ≤ t.puckVy
  then { t with
         reachedMaxHeight := true
         timeToMaxHeight := t.simulationTime }
  else t

/-- Minimum-Y tracking stage of animate. -/
def frameMinY (t : PState) : PState :=
  if t.puckY < t.minY then { t with minY := t.puckY } else t

/-- Moved-away-from-launch-height stage of animate: the flag is set once the
puck is more than 1 cm from the launch height in either direction. -/
def frameFlag (t : PState) : PState :=
  if t.hasMovedFromStart = false ∧ 1 < |t.puckY - t.launchY|
  then { t with hasMovedFromStart := true } else t

/-- Completion and bottom-stop stage of animate: once the moved-away flag is
set and the puck is at or below (downhill of) the launch height, snap to the
launch height, zero the velocity, record range, maximum height and flight
time, and end the run; otherwise stop silently at the bottom boundary. -/
def frameFinish (cfg : Config) (t : PState) : PState :=
  if t.hasMovedFromStart = true ∧ t.launchY ≤ t.puckY then
    { t with
      puckY := t.launchY
      puckVx := 0
      puckVy := 0
      finalX := t.puckX
      maxHeight := t.launchY - t.minY
      flightTime := t.simulationTime
      trajectoryComplete := true
      isAnimating := false }
  else if cfg.tableHeight - puckRadiusCm - 1 ≤ t.puckY then
    { t with isAnimating := false }
  else
    t

/-- Shallow embedding of one call of animate from the air-table script
(drawing and spark-dot recording omitted): early return when not animating,
then ten physics sub-steps, time accumulation, apex detection, minimum-Y
tracking, the moved-away flag, the return-to-launch-height completion test,
and the bottom-boundary stop, composed in source order. -/
def animFrame (cfg : Config) (frameDt : ℚ) (s : PState) : PState :=
  if s.isAnimating = false then s else
  frameFinish cfg (frameFlag (frameMinY (frameApex s.puckVy
    (frameClock (s.simulationTime + frameDt) (framePhysics cfg frameDt s)))))

/-- Shallow embedding of startAnimation from the air-table script
(spark-dot bookkeeping omitted). -/
def startAnimation (s : PState) : PState :=
  if s.isAnimating = true then s else
  { s with
    isAnimating := true
    launchX := s.puckX
    launchY := s.puckY
    minY := s.puckY
    hasMovedFromStart := false
    trajectoryComplete := false
    simulationTime := 0
    timeToMaxHeight := 0
    flightTime := 0
    reachedMaxHeight := false }

/-- Configuration of the concrete zero-vertical-velocity run used for claim
C2: slope angle 30 degrees, for which ay = 980 sin(30 pi / 180) = 490
exactly, on a 160 cm by 120 cm table (an 800 by 600 pixel canvas). -/
def c2Config : Config := { ay := 490, tableWidth := 160, tableHeight := 120 }

/-- Launch state of the concrete C2 run: puck at (80, 30) cm, purely
horizontal launch velocity 10 cm per second. -/
def c2Start : PState :=
  startAnimation
    { puckX := 80
      puckY := 30
      puckVx := 10
      puckVy := 0
      isAnimating := false
      launchX := 0
      launchY := 0
      hasMovedFromStart := false
      trajectoryComplete := false
      minY := 0
      maxHeight := 0
      finalX := 0
      flightTime := 0
      simulationTime := 0
      reachedMaxHeight := false
      timeToMaxHeight := 0
      bounces := 0 }

/-- The concrete C2 run after k animation frames of 20 ms each. -/
def c2Run (k : ℕ) : PState := (fun s => animFrame c2Config 0.02 s)^[k] c2Start

end Projectile

namespace Coupled

/-- Gravitational acceleration of the centripetal script, cm per second
squared. -/
def g : ℚ := 980

/-- Rope length in cm. -/
def actualRopeLength : ℚ := 75

/-- Cylinder mass in grams. -/
def cylinderMass : ℚ := 3.5

/-- Small pendulum mass in grams. -/
def smallMass : ℚ := 4.25

/-- Natural spring length in cm. -/
def naturalSpringLength : ℚ := 30

/-- Fixed per-run configuration of the coupled simulation: the module-level
variables that updatePhysics reads but never writes.  Math.sin and Math.cos
are abstracted as the function fields sin and cos; every theorem below holds
for all choices of these parameters. -/
structure Config where
  sin : ℚ → ℚ
  cos : ℚ → ℚ
  effectiveSpringConstant : ℚ
  x3 : Option ℚ
  currentSpringLength : ℚ
  releaseAngle : ℚ

/-- JavaScript truthiness fallback `a || b` for a possibly-null number a:
null and 0 both fall back to b. -/
def jsOrElse (a : Option ℚ) (b : ℚ) : ℚ :=
  match a with
  | none => b
  | some v => if v = 0 then b else v

/-- Dynamic state of the coupled simulation. -/
structure CoupledState where
  pendulumAngle : ℚ
  pendulumAngularVelocity : ℚ
  cylinderDisplacement : ℚ
  maxCylinderDisplacement : ℚ
  cylinderVelocity : ℚ
  lastCylinderAccel : ℚ
  isAnimating : Bool
deriving DecidableEq, Repr

/-- Pendulum angular velocity before damping after one sub-step: the update
uses effective gravity g plus the stored acceleration of the previous
sub-step. -/
def pendulumOmegaRaw (cfg : Config) (dt : ℚ) (s : CoupledState) : ℚ :=
  s.pendulumAngularVelocity +
    -((g + s.lastCylinderAccel) / actualRopeLength) * cfg.sin s.pendulumAngle * dt

/-- Pendulum angle after one sub-step (it uses the already-updated angular
velocity). -/
def pendulumAngleNext (cfg : Config) (dt : ℚ) (s : CoupledState) : ℚ :=
  s.pendulumAngle + pendulumOmegaRaw cfg dt s * dt

/-- Pendulum angular velocity after one sub-step, including the 0.9995
damping factor. -/
def pendulumOmegaNext (cfg : Config) (dt : ℚ) (s : CoupledState) : ℚ :=
  pendulumOmegaRaw cfg dt s * 0.9995

/-- Cylinder acceleration formula: (weight plus rope tension minus spring
force) over the cylinder mass, with the tension computed from the given
pendulum angle and angular velocity. -/
def cylinderAccelAt (cfg : Config) (theta omega d : ℚ) : ℚ :=
  let velocity := omega * actualRopeLength
  let centripetalAccel := velocity * velocity / actualRopeLength
  let tension := smallMass * g * cfg.cos theta + smallMass * centripetalAccel
  let downwardForce := cylinderMass * g + tension
  let restSpringExtension := jsOrElse cfg.x3 cfg.currentSpringLength - naturalSpringLength
  let totalSpringExtension := restSpringExtension + d
  let upwardSpringForce := cfg.effectiveSpringConstant * totalSpringExtension
  (downwardForce - upwardSpringForce) / cylinderMass

/-- Cylinder acceleration computed during one sub-step from state s: it uses
the updated pendulum angle and damped angular velocity of the same sub-step
and the not-yet-updated cylinder displacement. -/
def stepAccel (cfg : Config) (dt : ℚ) (s : CoupledState) : ℚ :=
  cylinderAccelAt cfg (pendulumAngleNext cfg dt s) (pendulumOmegaNext cfg dt s)
    s.cylinderDisplacement

/-- Cylinder displacement of one sub-step before the [0, 5] clamp is
applied. -/
def preClampDisplacement (cfg : Config) (dt : ℚ) (s : CoupledState) : ℚ :=
  s.cylinderDisplacement + (s.cylinderVelocity + stepAccel cfg dt s * dt) * 0.95 * dt

/-- Shallow embedding of updatePhysics from the centripetal script: early
return when not animating; pendulum semi-implicit Euler step under effective
gravity g plus the previous sub-step acceleration; velocity damping; rope
tension and cylinder net force; cylinder velocity and displacement updates;
maximum-displacement tracking before the clamp; the [0, 5] clamp; and the
store of the acceleration for the next sub-step. -/
def updatePhysics (cfg : Config) (dt : ℚ) (s : CoupledState) : CoupledState :=
  if s.isAnimating = false then s else
  let theta1 := pendulumAngleNext cfg dt s
  let omega2 := pendulumOmegaNext cfg dt s
  let accel := cylinderAccelAt cfg theta1 omega2 s.cylinderDisplacement
  let v1 := (s.cylinderVelocity + accel * dt) * 0.95
  let d1 := s.cylinderDisplacement + v1 * dt
  let newMax := if s.maxCylinderDisplacement < |d1| then |d1|
                else s.maxCylinderDisplacement
  let d2 := max 0 (min 5 d1)
  { s with
    pendulumAngle := theta1
    pendulumAngularVelocity := omega2
    cylinderDisplacement := d2
    maxCylinderDisplacement := newMax
    cylinderVelocity := v1
    lastCylinderAccel := accel }

/-- Shallow embedding of startAnimation from the centripetal script; note
that it does not reset lastCylinderAccel. -/
def startAnimation (cfg : Config) (s : CoupledState) : CoupledState :=
  if s.isAnimating = true then s else
  { s with
    isAnimating := true
    maxCylinderDisplacement := 0
    cylinderDisplacement := 0
    cylinderVelocity := 0
    pendulumAngle := cfg.releaseAngle
    pendulumAngularVelocity := 0 }

/-- The dynamic-state part of fullReset from the centripetal script: all
simulation variables, including lastCylinderAccel, return to zero. -/
def fullResetState : CoupledState :=
  { pendulumAngle := 0
    pendulumAngularVelocity := 0
    cylinderDisplacement := 0
    maxCylinderDisplacement := 0
    cylinderVelocity := 0
    lastCylinderAccel := 0
    isAnimating := false }

/-- Concrete configuration for claim C10: release angle 0 (so the pendulum
never moves and sin and cos are only evaluated at 0, where the stub values 0
and 1 agree with the true sine and cosine), extension slider at 20 cm and a
very stiff spring. -/
def c10Config : Config :=
  { sin := fun _ => 0
    cos := fun _ => 1
    effectiveSpringConstant := 100000
    x3 := some 50
    currentSpringLength := 50
    releaseAngle := 0 }

/-- The concrete C10 run after k sub-steps of the fixed 0.002 s step. -/
def c10Run (k : ℕ) : CoupledState :=
  (fun s => updatePhysics c10Config 0.002 s)^[k]
    (startAnimation c10Config fullResetState)

end Coupled

namespace JSNum

open JSVal

theorem jsMul_nan_left (v : JSVal) : jsMul nan v = nan := by cases v <;> rfl

theorem jsAdd_nan_left (v : JSVal) : jsAdd nan v = nan := by cases v <;> rfl

theorem jsSub_num_nan (q : ℚ) : jsSub (num q) nan = nan := rfl

theorem jsDiv_nan_left (v : JSVal) : jsDiv nan v = nan := by cases v <;> rfl

theorem jsDiv_num_num_of_ne {a b : ℚ} (hb : b ≠ 0) :
    jsDiv (num a) (num b) = num (a / b) := by
  simp [jsDiv, hb]

end JSNum

namespace Pendulum

theorem getTheoreticalPeriod_15_closed_form :
    getTheoreticalPeriod 15 = 2 * Real.pi * Real.sqrt (127 / 1764) := by
  unfold getTheoreticalPeriod getMomentOfInertiaR
  norm_num

theorem sqrt_ratio_lower : (0.2683 : ℝ) < Real.sqrt (127 / 1764) := by
  rw [Real.lt_sqrt (by norm_num)]
  norm_num

theorem sqrt_ratio_upper : Real.sqrt (127 / 1764) < 0.26833 := by
  rw [Real.sqrt_lt' (by norm_num)]
  norm_num

end Pendulum

/-- C1 counterexample: the theoretical physical-pendulum period at h = 15 cm
with L = 100 cm and g = 980 is not approximately 0.909 s, even at the very
generous absolute tolerance of 0.1 s. -/
theorem c1_period_not_0909 :
    ¬ |Pendulum.getTheoreticalPeriod 15 - 0.909| ≤ 0.1 := by
  have hkey := Pendulum.getTheoreticalPeriod_15_closed_form
  have hs1 := Pendulum.sqrt_ratio_lower
  have hpi := Real.pi_gt_d6
  have hps : (3.141592 : ℝ) * 0.2683 < Real.pi * Real.sqrt (127 / 1764) :=
    mul_lt_mul'' hpi hs1 (by norm_num) (by norm_num)
  rw [hkey, abs_le]
  intro hcon
  nlinarith [hcon.2]

/-- C1 amended: with L = 100 cm and g = 980, the theoretical period computed
by getTheoreticalPeriod for h = 15 cm lies strictly between 1.685 s and
1.687 s (the value is 2 pi sqrt(127/1764), approximately 1.686 s). -/
theorem c1_period_approx_1686 :
    1.685 < Pendulum.getTheoreticalPeriod 15 ∧
      Pendulum.getTheoreticalPeriod 15 < 1.687 := by
  have hkey := Pendulum.getTheoreticalPeriod_15_closed_form
  have hs1 := Pendulum.sqrt_ratio_lower
  have hs2 := Pendulum.sqrt_ratio_upper
  have hpi1 := Real.pi_gt_d6
  have hpi2 := Real.pi_lt_d6
  have hps1 : (3.141592 : ℝ) * 0.2683 < Real.pi * Real.sqrt (127 / 1764) :=
    mul_lt_mul'' hpi1 hs1 (by norm_num) (by norm_num)
  have hps2 : Real.pi * Real.sqrt (127 / 1764) < 3.141593 * 0.26833 :=
    mul_lt_mul'' hpi2 hs2 (le_of_lt Real.pi_pos) (Real.sqrt_nonneg _)
  constructor
  · rw [hkey]; nlinarith
  · rw [hkey]; nlinarith

set_option maxRecDepth 100000

namespace Projectile

theorem updatePhysics_launchY (cfg : Config) (dt : ℚ) (s : PState) :
    (updatePhysics cfg dt s).launchY = s.launchY := rfl

theorem framePhysics_launchY (cfg : Config) (f : ℚ) (s : PState) :
    (framePhysics cfg f s).launchY = s.launchY := by
  unfold framePhysics
  induction physicsSteps with
  | zero => rfl
  | succ k ih => rw [Function.iterate_succ_apply', updatePhysics_launchY, ih]

theorem frameClock_puckY (c : ℚ) (t : PState) : (frameClock c t).puckY = t.puckY := rfl

theorem frameClock_launchY (c : ℚ) (t : PState) : (frameClock c t).launchY = t.launchY := rfl

theorem frameApex_puckY (v : ℚ) (t : PState) : (frameApex v t).puckY = t.puckY := by
  unfold frameApex; split_ifs <;> rfl

theorem frameApex_launchY (v : ℚ) (t : PState) : (frameApex v t).launchY = t.launchY := by
  unfold frameApex; split_ifs <;> rfl

theorem frameMinY_puckY (t : PState) : (frameMinY t).puckY = t.puckY := by
  unfold frameMinY; split_ifs <;> rfl

theorem frameMinY_launchY (t : PState) : (frameMinY t).launchY = t.launchY := by
  unfold frameMinY; split_ifs <;> rfl

theorem frameFlag_puckY (t : PState) : (frameFlag t).puckY = t.puckY := by
  unfold frameFlag; split_ifs <;> rfl

theorem frameFlag_launchY (t : PState) : (frameFlag t).launchY = t.launchY := by
  unfold frameFlag; split_ifs <;> rfl

theorem frameFlag_sets (t : PState) (h : 1 < |t.puckY - t.launchY|) :
    (frameFlag t).hasMovedFromStart = true := by
  unfold frameFlag
  by_cases hb : t.hasMovedFromStart = false
  · rw [if_pos ⟨hb, h⟩]
  · have hnot : ¬(t.hasMovedFromStart = false ∧ 1 < |t.puckY - t.launchY|) :=
      fun hcon => hb hcon.1
    rw [if_neg hnot]
    simpa using hb

theorem frameFinish_completes (cfg : Config) (t : PState)
    (hflag : t.hasMovedFromStart = true) (hy : t.launchY ≤ t.puckY) :
    (frameFinish cfg t).trajectoryComplete = true := by
  unfold frameFinish
  rw [if_pos ⟨hflag, hy⟩]

theorem animFrame_running (cfg : Config) (f : ℚ) (s : PState)
    (hrun : s.isAnimating = true) :
    animFrame cfg f s =
      frameFinish cfg (frameFlag (frameMinY (frameApex s.puckVy
        (frameClock (s.simulationTime + f) (framePhysics cfg f s))))) := by
  unfold animFrame
  rw [hrun]
  rfl

theorem stages_puckY (v c : ℚ) (t : PState) :
    (frameFlag (frameMinY (frameApex v (frameClock c t)))).puckY = t.puckY := by
  rw [frameFlag_puckY, frameMinY_puckY, frameApex_puckY, frameClock_puckY]

theorem stages_launchY (v c : ℚ) (t : PState) :
    (frameFlag (frameMinY (frameApex v (frameClock c t)))).launchY = t.launchY := by
  rw [frameFlag_launchY, frameMinY_launchY, frameApex_launchY, frameClock_launchY]

theorem stages_flag (v c : ℚ) (t : PState) (h : 1 < |t.puckY - t.launchY|) :
    (frameFlag (frameMinY (frameApex v (frameClock c t)))).hasMovedFromStart = true := by
  apply frameFlag_sets
  rw [frameMinY_puckY, frameApex_puckY, frameClock_puckY,
    frameMinY_launchY, frameApex_launchY, frameClock_launchY]
  exact h

end Projectile

/-- C2 amended: on the downhill-only model a zero-vertical-velocity launch
does complete without any bounce: any animation frame whose physics
sub-steps leave the puck more than 1 cm below (downhill of) the launch
height satisfies the moved-away test and the return test simultaneously, so
that same frame marks the trajectory complete. -/
theorem c2_amended_drift_completes (cfg : Projectile.Config) (f : ℚ)
    (s : Projectile.PState) (hrun : s.isAnimating = true)
    (hdrift : s.launchY + 1 < (Projectile.framePhysics cfg f s).puckY) :
    (Projectile.animFrame cfg f s).trajectoryComplete = true := by
  have hl0 : (Projectile.framePhysics cfg f s).launchY = s.launchY :=
    Projectile.framePhysics_launchY cfg f s
  rw [Projectile.animFrame_running cfg f s hrun]
  apply Projectile.frameFinish_completes
  · apply Projectile.stages_flag
    rw [hl0, abs_of_pos (by linarith)]
    linarith
  · rw [Projectile.stages_puckY, Projectile.stages_launchY, hl0]
    linarith

/-- C2 counterexample: a projectile run launched purely horizontally (zero
initial vertical velocity, horizontal speed 10 cm/s) at slope angle 30
degrees, for which the downhill acceleration of the source formula is
exactly g sin(30 pi / 180) = 490, signals trajectory completion after four
animation frames without ever having been deflected by a boundary bounce. -/
theorem c2_zero_vy_run_completes :
    Projectile.c2Start.puckVy = 0 ∧
    Projectile.c2Start.puckVx = 10 ∧
    (Projectile.c2Run 4).trajectoryComplete = true ∧
    (Projectile.c2Run 4).bounces = 0 ∧
    Projectile.slopeAccel 30 = Projectile.c2Config.ay := by
  refine ⟨by with_unfolding_all decide, by with_unfolding_all decide,
    by with_unfolding_all decide, by with_unfolding_all decide, ?_⟩
  unfold Projectile.slopeAccel Projectile.c2Config
  have h30 : (30 : ℝ) * Real.pi / 180 = Real.pi / 6 := by ring
  rw [h30, Real.sin_pi_div_six]
  norm_num

/-- C2 witness: the amended theorem applied to the concrete zero-vy run at
its fourth frame, whose physics sub-steps leave the puck more than 1 cm
below launch height. -/
theorem c2_amended_drift_completes_witness :
    (Projectile.c2Run 3).isAnimating = true ∧
    (Projectile.c2Run 3).launchY + 1 <
      (Projectile.framePhysics Projectile.c2Config 0.02 (Projectile.c2Run 3)).puckY ∧
    (Projectile.animFrame Projectile.c2Config 0.02
      (Projectile.c2Run 3)).trajectoryComplete = true :=
  ⟨by with_unfolding_all decide, by with_unfolding_all decide,
   c2_amended_drift_completes Projectile.c2Config 0.02 (Projectile.c2Run 3)
     (by with_unfolding_all decide) (by with_unfolding_all decide)⟩

/-- C5: after every projectile updatePhysics call the puck stays inside the
margin rectangle (margin = puck radius in cm = 3), and whenever the raw
integration step carries the position past a wall margin the position is
clamped to that margin and the corresponding velocity component v is
replaced by minus 0.8 v. -/
theorem c5_wall_clamp_invariant (cfg : Projectile.Config) (dt : ℚ)
    (s : Projectile.PState)
    (hW : 2 * Projectile.puckRadiusCm ≤ cfg.tableWidth)
    (hH : 2 * Projectile.puckRadiusCm ≤ cfg.tableHeight) :
    Projectile.puckRadiusCm = 3 ∧
    (Projectile.puckRadiusCm ≤ (Projectile.updatePhysics cfg dt s).puckX ∧
     (Projectile.updatePhysics cfg dt s).puckX ≤
       cfg.tableWidth - Projectile.puckRadiusCm ∧
     Projectile.puckRadiusCm ≤ (Projectile.updatePhysics cfg dt s).puckY ∧
     (Projectile.updatePhysics cfg dt s).puckY ≤
       cfg.tableHeight - Projectile.puckRadiusCm) ∧
    (s.puckX + (s.puckVx + 0 * dt) * dt < Projectile.puckRadiusCm →
      (Projectile.updatePhysics cfg dt s).puckX = Projectile.puckRadiusCm ∧
      (Projectile.updatePhysics cfg dt s).puckVx = -(s.puckVx + 0 * dt) * 0.8) ∧
    (cfg.tableWidth - Projectile.puckRadiusCm <
        s.puckX + (s.puckVx + 0 * dt) * dt →
      (Projectile.updatePhysics cfg dt s).puckX =
        cfg.tableWidth - Projectile.puckRadiusCm ∧
      (Projectile.updatePhysics cfg dt s).puckVx = -(s.puckVx + 0 * dt) * 0.8) ∧
    (s.puckY + (s.puckVy + cfg.ay * dt) * dt < Projectile.puckRadiusCm →
      (Projectile.updatePhysics cfg dt s).puckY = Projectile.puckRadiusCm ∧
      (Projectile.updatePhysics cfg dt s).puckVy =
        -(s.puckVy + cfg.ay * dt) * 0.8) ∧
    (cfg.tableHeight - Projectile.puckRadiusCm <
        s.puckY + (s.puckVy + cfg.ay * dt) * dt →
      (Projectile.updatePhysics cfg dt s).puckY =
        cfg.tableHeight - Projectile.puckRadiusCm ∧
      (Projectile.updatePhysics cfg dt s).puckVy =
        -(s.puckVy + cfg.ay * dt) * 0.8) := by
  have hm : Projectile.puckRadiusCm = 3 := by
    unfold Projectile.puckRadiusCm Projectile.puckRadius Projectile.pixelsPerCm
    norm_num
  refine ⟨hm, ?_⟩
  simp only [Projectile.updatePhysics]
  split_ifs with h1 h2 h3 h4 <;>
    refine ⟨⟨?_, ?_, ?_, ?_⟩, fun hc1 => ⟨?_, ?_⟩, fun hc2 => ⟨?_, ?_⟩,
      fun hc3 => ⟨?_, ?_⟩, fun hc4 => ⟨?_, ?_⟩⟩ <;>
    first
      | rfl
      | linarith

/-- C5 witness: the clamp theorem applied to the concrete 160 by 120 table
and the concrete launch state of the zero-vy run. -/
theorem c5_wall_clamp_invariant_witness :
    2 * Projectile.puckRadiusCm ≤ Projectile.c2Config.tableWidth ∧
    2 * Projectile.puckRadiusCm ≤ Projectile.c2Config.tableHeight ∧
    Projectile.puckRadiusCm ≤
      (Projectile.updatePhysics Projectile.c2Config 0.01
        Projectile.c2Start).puckX :=
  ⟨by with_unfolding_all decide, by with_unfolding_all decide,
   ((c5_wall_clamp_invariant Projectile.c2Config 0.01 Projectile.c2Start
      (by with_unfolding_all decide) (by with_unfolding_all decide)).2.1).1⟩

namespace Pendulum

theorem updatePhysics_simTime (sin : ℚ → ℚ) (h dt : ℚ) (s : PendState) :
    (updatePhysics sin h dt s).simulationTime = s.simulationTime := rfl

theorem subStep_simTime (sin : ℚ → ℚ) (h : ℚ) (s : PendState) :
    (subStep sin h s).simulationTime = s.simulationTime + animateDt := rfl

theorem iterate_subStep_simTime (sin : ℚ → ℚ) (h : ℚ) (k : ℕ) (s : PendState) :
    ((fun st => subStep sin h st)^[k] s).simulationTime =
      s.simulationTime + k * animateDt := by
  induction k with
  | zero => simp
  | succ n ih =>
      rw [Function.iterate_succ_apply', subStep_simTime, ih]
      push_cast
      ring

end Pendulum

/-- C8: one call of the pendulum animation step with elapsed frame interval
f executes exactly min(round(f / 0.0005), 100) physics sub-steps of size
0.0005 s (observed through the simulationTime accumulator, which each
sub-step advances by exactly one micro-step), and that count never exceeds
100. -/
theorem c8_frame_substep_count (sin : ℚ → ℚ) (h f : ℚ) (s : Pendulum.PendState) :
    (Pendulum.animate sin h f s).simulationTime =
      s.simulationTime +
        ((min (Pendulum.jsRound (f / Pendulum.animateDt)) 100).toNat : ℚ) *
          Pendulum.animateDt ∧
    (min (Pendulum.jsRound (f / Pendulum.animateDt)) 100).toNat ≤ 100 := by
  constructor
  · unfold Pendulum.animate
    rw [Pendulum.iterate_subStep_simTime]
  · omega

/-- C6: the pendulum period counter is incremented by one during a sub-step
exactly when the swing-start flag holds after its update (it was already set
or the new angular-velocity magnitude exceeds 0.001), the angular velocity
before the RK4 update was positive, the angular velocity after the update is
non-positive, and the angle after the update is positive; in particular a
release from rest (angular velocity exactly zero) never counts a period in
that sub-step. -/
theorem c6_period_count_condition (sin : ℚ → ℚ) (h dt : ℚ)
    (s : Pendulum.PendState) :
    ((Pendulum.updatePhysics sin h dt s).completedPeriods =
        s.completedPeriods +
          (if (s.hasStartedSwinging = true ∨
                0.001 < |(Pendulum.rk4 sin h dt s.angle s.angularVelocity).2|) ∧
              0 < s.angularVelocity ∧
              (Pendulum.rk4 sin h dt s.angle s.angularVelocity).2 ≤ 0 ∧
              0 < (Pendulum.rk4 sin h dt s.angle s.angularVelocity).1
           then 1 else 0)) ∧
    (s.angularVelocity = 0 →
      (Pendulum.updatePhysics sin h dt s).completedPeriods =
        s.completedPeriods) := by
  have hstart : ((if 0.001 < |(Pendulum.rk4 sin h dt s.angle s.angularVelocity).2|
      then true else s.hasStartedSwinging) = true) ↔
      (s.hasStartedSwinging = true ∨
        0.001 < |(Pendulum.rk4 sin h dt s.angle s.angularVelocity).2|) := by
    split_ifs with hp
    · simp [hp]
    · simp [hp]
  constructor
  · simp only [Pendulum.updatePhysics]
    rw [if_congr (and_congr_left' hstart) rfl rfl]
    split_ifs <;> omega
  · intro h0
    simp only [Pendulum.updatePhysics]
    rw [if_neg]
    intro hcon
    rw [h0] at hcon
    exact lt_irrefl 0 hcon.2.1

namespace Coupled

theorem updatePhysics_isAnimating (cfg : Config) (dt : ℚ) (s : CoupledState) :
    (updatePhysics cfg dt s).isAnimating = s.isAnimating := by
  unfold updatePhysics
  split_ifs <;> rfl

theorem updatePhysics_running (cfg : Config) (dt : ℚ) (s : CoupledState)
    (h : s.isAnimating = true) :
    (updatePhysics cfg dt s).pendulumAngularVelocity =
        pendulumOmegaNext cfg dt s ∧
      (updatePhysics cfg dt s).pendulumAngle = pendulumAngleNext cfg dt s ∧
      (updatePhysics cfg dt s).lastCylinderAccel = stepAccel cfg dt s ∧
      (updatePhysics cfg dt s).cylinderDisplacement =
        max 0 (min 5 (preClampDisplacement cfg dt s)) ∧
      (updatePhysics cfg dt s).maxCylinderDisplacement =
        (if s.maxCylinderDisplacement < |preClampDisplacement cfg dt s|
         then |preClampDisplacement cfg dt s|
         else s.maxCylinderDisplacement) := by
  unfold updatePhysics
  rw [h]
  exact ⟨rfl, rfl, rfl, rfl, rfl⟩

end Coupled

/-- C4: after any coupled-oscillator sub-step taken while the simulation is
running, the cylinder displacement lies in [0, 5], for every configuration
(spring constant, rest extension, release angle, sine and cosine) and every
input state, because the clamp is applied unconditionally at the end of the
sub-step. -/
theorem c4_displacement_clamped (cfg : Coupled.Config) (dt : ℚ)
    (s : Coupled.CoupledState) (h : s.isAnimating = true) :
    0 ≤ (Coupled.updatePhysics cfg dt s).cylinderDisplacement ∧
    (Coupled.updatePhysics cfg dt s).cylinderDisplacement ≤ 5 := by
  rw [(Coupled.updatePhysics_running cfg dt s h).2.2.2.1]
  exact ⟨le_max_left _ _, max_le (by norm_num) (min_le_left _ _)⟩

/-- C4 witness: the clamp theorem applied to the concrete released state of
the stiff-spring run. -/
theorem c4_displacement_clamped_witness :
    (Coupled.startAnimation Coupled.c10Config
        Coupled.fullResetState).isAnimating = true ∧
    0 ≤ (Coupled.updatePhysics Coupled.c10Config 0.002
          (Coupled.startAnimation Coupled.c10Config
            Coupled.fullResetState)).cylinderDisplacement :=
  ⟨rfl, (c4_displacement_clamped Coupled.c10Config 0.002
      (Coupled.startAnimation Coupled.c10Config Coupled.fullResetState)
      rfl).1⟩

/-- C9: in every running coupled sub-step the pendulum is updated under
effective gravity g plus the acceleration stored by the previous sub-step
(field lastCylinderAccel of the incoming state); the acceleration computed
in the current sub-step from the post-update pendulum values is stored into
lastCylinderAccel and is the value the next sub-step reads; and the full
reset leaves a stored acceleration of zero, which startAnimation preserves,
so the first sub-step after a reset uses effective gravity g + 0. -/
theorem c9_one_step_lagged_coupling (cfg : Coupled.Config) (dt : ℚ)
    (s : Coupled.CoupledState) (h : s.isAnimating = true) :
    ((Coupled.updatePhysics cfg dt s).pendulumAngularVelocity =
        (s.pendulumAngularVelocity +
          -((Coupled.g + s.lastCylinderAccel) / Coupled.actualRopeLength) *
            cfg.sin s.pendulumAngle * dt) * 0.9995) ∧
    ((Coupled.updatePhysics cfg dt s).lastCylinderAccel =
        Coupled.stepAccel cfg dt s) ∧
    ((Coupled.startAnimation cfg Coupled.fullResetState).lastCylinderAccel
        = 0) ∧
    ((Coupled.updatePhysics cfg dt
        (Coupled.updatePhysics cfg dt s)).pendulumAngularVelocity =
      ((Coupled.updatePhysics cfg dt s).pendulumAngularVelocity +
        -((Coupled.g + Coupled.stepAccel cfg dt s) /
            Coupled.actualRopeLength) *
          cfg.sin (Coupled.updatePhysics cfg dt s).pendulumAngle * dt) *
        0.9995) := by
  have h2 : (Coupled.updatePhysics cfg dt s).isAnimating = true := by
    rw [Coupled.updatePhysics_isAnimating]; exact h
  refine ⟨(Coupled.updatePhysics_running cfg dt s h).1, 
    (Coupled.updatePhysics_running cfg dt s h).2.2.1, rfl, ?_⟩
  rw [(Coupled.updatePhysics_running cfg dt _ h2).1]
  unfold Coupled.pendulumOmegaNext Coupled.pendulumOmegaRaw
  rw [(Coupled.updatePhysics_running cfg dt s h).2.2.1]

/-- C9 witness: the lag theorem applied to the concrete released state of
the stiff-spring run. -/
theorem c9_one_step_lagged_coupling_witness :
    (Coupled.startAnimation Coupled.c10Config
        Coupled.fullResetState).isAnimating = true ∧
    (Coupled.updatePhysics Coupled.c10Config 0.002
        (Coupled.startAnimation Coupled.c10Config
          Coupled.fullResetState)).lastCylinderAccel =
      Coupled.stepAccel Coupled.c10Config 0.002
        (Coupled.startAnimation Coupled.c10Config Coupled.fullResetState) :=
  ⟨rfl, (c9_one_step_lagged_coupling Coupled.c10Config 0.002
      (Coupled.startAnimation Coupled.c10Config Coupled.fullResetState)
      rfl).2.1⟩

/-- C10: in every running coupled sub-step the maximum-displacement tracker
is updated, before the clamp, to the maximum of its previous value and the
absolute value of the pre-clamp displacement, hence it never decreases
during a run; and it can exceed the clamp bound 5, as the concrete
stiff-spring run shows after three sub-steps, while the clamped displacement
itself stays at most 5. -/
theorem c10_max_tracks_pre_clamp :
    (∀ (cfg : Coupled.Config) (dt : ℚ) (s : Coupled.CoupledState),
        s.isAnimating = true →
        (Coupled.updatePhysics cfg dt s).maxCylinderDisplacement =
            max s.maxCylinderDisplacement
              |Coupled.preClampDisplacement cfg dt s| ∧
          s.maxCylinderDisplacement ≤
            (Coupled.updatePhysics cfg dt s).maxCylinderDisplacement) ∧
    5 < (Coupled.c10Run 3).maxCylinderDisplacement ∧
    (Coupled.c10Run 3).cylinderDisplacement ≤ 5 := by
  refine ⟨?_, by with_unfolding_all decide, by with_unfolding_all decide⟩
  intro cfg dt s h
  have heq := (Coupled.updatePhysics_running cfg dt s h).2.2.2.2
  constructor
  · rw [heq]
    split_ifs with hc
    · exact (max_eq_right (le_of_lt hc)).symm
    · exact (max_eq_left (le_of_not_lt hc)).symm
  · rw [heq]
    split_ifs with hc
    · exact le_of_lt hc
    · exact le_refl _

/-- C10 witness: the tracking theorem applied at the concrete released
state. -/
theorem c10_max_tracks_pre_clamp_witness :
    (Coupled.startAnimation Coupled.c10Config
        Coupled.fullResetState).isAnimating = true ∧
    (Coupled.startAnimation Coupled.c10Config
        Coupled.fullResetState).maxCylinderDisplacement ≤
      (Coupled.updatePhysics Coupled.c10Config 0.002
        (Coupled.startAnimation Coupled.c10Config
          Coupled.fullResetState)).maxCylinderDisplacement :=
  ⟨rfl, (c10_max_tracks_pre_clamp.1 Coupled.c10Config 0.002
      (Coupled.startAnimation Coupled.c10Config Coupled.fullResetState)
      rfl).2⟩

namespace JSNum

open JSVal

theorem jsAdd_num_num (a b : ℚ) : jsAdd (num a) (num b) = num (a + b) := rfl

theorem jsMul_num_num (a b : ℚ) : jsMul (num a) (num b) = num (a * b) := rfl

theorem jsSub_num_num (a b : ℚ) : jsSub (num a) (num b) = num (a - b) := by
  unfold jsSub jsNeg
  rw [jsAdd_num_num, sub_eq_add_neg]

theorem jsDiv_zero_zero : jsDiv (num 0) (num 0) = nan := by simp [jsDiv]

end JSNum

namespace Regression

open JSNum JSVal

theorem list_sum_pos {l : List ℚ} {x : ℚ} (hx : x ∈ l) (hpos : 0 < x)
    (hnn : ∀ y ∈ l, 0 ≤ y) : 0 < l.sum := by
  induction l with
  | nil => cases hx
  | cons a t ih =>
      rw [List.sum_cons]
      rcases List.mem_cons.mp hx with rfl | hmem
      · have ht : 0 ≤ t.sum :=
          List.sum_nonneg (fun y hy => hnn y (List.mem_cons_of_mem _ hy))
        linarith
      · have ha : 0 ≤ a := hnn a (List.mem_cons_self a t)
        have := ih hmem (fun y hy => hnn y (List.mem_cons_of_mem _ hy))
        linarith

theorem sum_sq_sub (xs : List ℚ) (c : ℚ) :
    (xs.map fun x => (x - c) ^ 2).sum =
      (xs.map fun x => x * x).sum - 2 * c * xs.sum + (xs.length : ℚ) * c ^ 2 := by
  induction xs with
  | nil => simp
  | cons a t ih =>
      simp only [List.map_cons, List.sum_cons, List.length_cons, ih]
      push_cast
      ring

theorem sq_dev_sum_pos (xs : List ℚ) (c a b : ℚ) (ha : a ∈ xs) (hb : b ∈ xs)
    (hab : a ≠ b) : 0 < (xs.map fun x => (x - c) ^ 2).sum := by
  have key : a ≠ c ∨ b ≠ c := by
    by_contra hcon
    push_neg at hcon
    exact hab (hcon.1.trans hcon.2.symm)
  have hnn : ∀ y ∈ xs.map fun x => (x - c) ^ 2, 0 ≤ y := by
    intro y hy
    obtain ⟨x, _, rfl⟩ := List.mem_map.mp hy
    positivity
  rcases key with hk | hk
  · have hmem : (a - c) ^ 2 ∈ xs.map fun x => (x - c) ^ 2 :=
      List.mem_map.mpr ⟨a, ha, rfl⟩
    have : 0 < (a - c) ^ 2 := by
      have := sub_ne_zero.mpr hk
      positivity
    exact list_sum_pos hmem this hnn
  · have hmem : (b - c) ^ 2 ∈ xs.map fun x => (x - c) ^ 2 :=
      List.mem_map.mpr ⟨b, hb, rfl⟩
    have : 0 < (b - c) ^ 2 := by
      have := sub_ne_zero.mpr hk
      positivity
    exact list_sum_pos hmem this hnn

theorem variance_denom_pos (xs : List ℚ) (a b : ℚ) (ha : a ∈ xs) (hb : b ∈ xs)
    (hab : a ≠ b) :
    0 < (xs.length : ℚ) * (xs.map fun x => x * x).sum - xs.sum * xs.sum := by
  have hlen : 0 < xs.length := List.length_pos_of_mem ha
  have hn : (0 : ℚ) < xs.length := by exact_mod_cast hlen
  have hpos := sq_dev_sum_pos xs (xs.sum / xs.length) a b ha hb hab
  have hexp := sum_sq_sub xs (xs.sum / xs.length)
  have hne : (xs.length : ℚ) ≠ 0 := ne_of_gt hn
  have key : (xs.map fun x => (x - xs.sum / xs.length) ^ 2).sum =
      ((xs.length : ℚ) * (xs.map fun x => x * x).sum - xs.sum * xs.sum) /
        xs.length := by
    rw [hexp]
    field_simp
    ring
  rw [key] at hpos
  have := (div_pos_iff.mp hpos)
  rcases this with ⟨h1, _⟩ | ⟨_, h2⟩
  · exact h1
  · linarith

end Regression

namespace Regression

open JSNum JSVal

theorem sum_fst_const (P : List (ℚ × ℚ)) (c : ℚ) (h : ∀ q ∈ P, q.1 = c) :
    (P.map fun q => q.1).sum = P.length * c := by
  induction P with
  | nil => simp
  | cons a t ih =>
      have ha := h a (List.mem_cons_self a t)
      simp only [List.map_cons, List.sum_cons, List.length_cons,
        ih (fun q hq => h q (List.mem_cons_of_mem _ hq)), ha]
      push_cast
      ring

theorem sum_mul_fst_const (P : List (ℚ × ℚ)) (c : ℚ) (h : ∀ q ∈ P, q.1 = c) :
    (P.map fun q => q.1 * q.2).sum = c * (P.map fun q => q.2).sum := by
  induction P with
  | nil => simp
  | cons a t ih =>
      have ha := h a (List.mem_cons_self a t)
      simp only [List.map_cons, List.sum_cons,
        ih (fun q hq => h q (List.mem_cons_of_mem _ hq)), ha]
      ring

theorem sum_sq_fst_const (P : List (ℚ × ℚ)) (c : ℚ) (h : ∀ q ∈ P, q.1 = c) :
    (P.map fun q => q.1 * q.1).sum = P.length * (c * c) := by
  induction P with
  | nil => simp
  | cons a t ih =>
      have ha := h a (List.mem_cons_self a t)
      simp only [List.map_cons, List.sum_cons, List.length_cons,
        ih (fun q hq => h q (List.mem_cons_of_mem _ hq)), ha]
      push_cast
      ring

theorem foldl_jsAdd_nan (l : List JSVal) : l.foldl jsAdd nan = nan := by
  induction l with
  | nil => rfl
  | cons a t ih => rw [List.foldl_cons, jsAdd_nan_left, ih]

theorem foldl_jsAdd_all_nan (l : List JSVal) (hne : l ≠ [])
    (h : ∀ v ∈ l, v = nan) : l.foldl jsAdd (num 0) = nan := by
  cases l with
  | nil => exact absurd rfl hne
  | cons a t =>
      have ha := h a (List.mem_cons_self a t)
      rw [List.foldl_cons, ha]
      have : jsAdd (num 0) nan = nan := rfl
      rw [this, foldl_jsAdd_nan]

theorem foldl_jsAdd_zeros (l : List JSVal) (q : ℚ) (h : ∀ v ∈ l, v = num 0) :
    l.foldl jsAdd (num q) = num q := by
  induction l generalizing q with
  | nil => rfl
  | cons a t ih =>
      have ha := h a (List.mem_cons_self a t)
      rw [List.foldl_cons, ha, jsAdd_num_num, add_zero]
      exact ih q (fun v hv => h v (List.mem_cons_of_mem _ hv))

theorem zip_self_map (xs : List ℚ) (f : ℚ → ℚ) :
    xs.zip (xs.map f) = xs.map fun x => (x, f x) := by
  induction xs with
  | nil => rfl
  | cons a t ih => simp only [List.map_cons, List.zip_cons_cons, ih]

theorem sum_affine (xs : List ℚ) (a b : ℚ) :
    (xs.map fun x => a * x + b).sum = a * xs.sum + b * (xs.length : ℚ) := by
  induction xs with
  | nil => simp
  | cons x t ih =>
      simp only [List.map_cons, List.sum_cons, List.length_cons, ih]
      push_cast
      ring

theorem sum_x_affine (xs : List ℚ) (a b : ℚ) :
    (xs.map fun x => x * (a * x + b)).sum =
      a * (xs.map fun x => x * x).sum + b * xs.sum := by
  induction xs with
  | nil => simp
  | cons x t ih =>
      simp only [List.map_cons, List.sum_cons, ih]
      ring

end Regression

namespace Regression

open JSNum JSVal

theorem jsSq_nan : jsSq nan = nan := rfl

theorem jsSq_num (a : ℚ) : jsSq (num a) = num (a * a) := rfl

/-- C3 amended: linearRegression has no InsufficientVariance error path.
For equal-length inputs with at least two samples whose x values are all
equal, it returns a result (it does not fail): the slope is the JavaScript
division 0 / 0 = NaN, and the intercept and R squared computed from it are
NaN as well.  The only guard in the source is the fewer-than-two-samples
null return. -/
theorem linearRegression_const_x (xs ys : List ℚ) (c : ℚ)
    (hlen : xs.length = ys.length) (h2 : 2 ≤ xs.length)
    (hc : ∀ x ∈ xs, x = c) :
    linearRegression xs ys = some ⟨nan, nan, nan⟩ := by
  have hguard : ¬(xs.length < 2) := by omega
  unfold linearRegression
  rw [if_neg hguard]
  set P := xs.zip ys with hP
  have hPfst : ∀ q ∈ P, q.1 = c := fun q hq => hc q.1 (List.of_mem_zip hq).1
  have hPlen : P.length = xs.length := by
    rw [hP, List.length_zip, hlen, min_self]
  have hnum : (xs.length : ℚ) * (P.map fun q => q.1 * q.2).sum -
      (P.map fun q => q.1).sum * (P.map fun q => q.2).sum = 0 := by
    rw [sum_mul_fst_const P c hPfst, sum_fst_const P c hPfst, hPlen]
    ring
  have hden : (xs.length : ℚ) * (P.map fun q => q.1 * q.1).sum -
      (P.map fun q => q.1).sum * (P.map fun q => q.1).sum = 0 := by
    rw [sum_sq_fst_const P c hPfst, sum_fst_const P c hPfst, hPlen]
    ring
  dsimp only
  rw [hnum, hden, jsDiv_zero_zero]
  simp only [jsMul_nan_left, jsSub_num_nan, jsDiv_nan_left, jsAdd_nan_left,
    jsSq_nan]
  have hne : P ≠ [] := by
    have : 0 < P.length := by omega
    exact List.length_pos.mp this
  have hres : (P.map fun _ => nan).foldl jsAdd (num 0) = nan := by
    apply foldl_jsAdd_all_nan
    · intro hcon
      exact hne (List.map_eq_nil_iff.mp hcon)
    · intro v hv
      obtain ⟨q, _, rfl⟩ := List.mem_map.mp hv
      rfl
  rw [hres, jsDiv_nan_left, jsSub_num_nan]

end Regression

namespace Regression

open JSNum JSVal

/-- C7: on samples generated exactly by y = 3x + 2 with at least two
samples and two distinct x values, linearRegression returns slope exactly 3,
intercept exactly 2 and R squared exactly 1 over exact arithmetic, with the
slope computed as (n sumXY - sumX sumY) / (n sumX2 - sumX^2), the intercept
as (sumY - slope sumX) / n, and R squared as 1 - SSres / SStot. -/
theorem linearRegression_exact_fit (xs : List ℚ) (a b : ℚ)
    (h2 : 2 ≤ xs.length) (ha : a ∈ xs) (hb : b ∈ xs) (hab : a ≠ b) :
    linearRegression xs (xs.map fun x => 3 * x + 2) =
      some ⟨num 3, num 2, num 1⟩ := by
  have hguard : ¬(xs.length < 2) := by omega
  unfold linearRegression
  rw [if_neg hguard, zip_self_map]
  dsimp only
  simp only [List.map_map]
  have hc1 : ((fun q : ℚ × ℚ => q.1) ∘ fun x => (x, 3 * x + 2)) =
      fun x : ℚ => x := rfl
  have hc2 : ((fun q : ℚ × ℚ => q.2) ∘ fun x => (x, 3 * x + 2)) =
      fun x : ℚ => 3 * x + 2 := rfl
  have hc3 : ((fun q : ℚ × ℚ => q.1 * q.2) ∘ fun x => (x, 3 * x + 2)) =
      fun x : ℚ => x * (3 * x + 2) := rfl
  have hc4 : ((fun q : ℚ × ℚ => q.1 * q.1) ∘ fun x => (x, 3 * x + 2)) =
      fun x : ℚ => x * x := rfl
  have hc5 : ∀ u v : JSVal,
      ((fun q : ℚ × ℚ => jsSq (jsSub (num q.2) (jsAdd (jsMul u (num q.1)) v)))
          ∘ fun x => (x, 3 * x + 2)) =
        fun x : ℚ => jsSq (jsSub (num (3 * x + 2)) (jsAdd (jsMul u (num x)) v)) :=
    fun u v => rfl
  have hc6 : ∀ c : ℚ,
      ((fun q : ℚ × ℚ => (q.2 - c) ^ 2) ∘ fun x => (x, 3 * x + 2)) =
        fun x : ℚ => (3 * x + 2 - c) ^ 2 :=
    fun c => rfl
  rw [hc1, hc2, hc3, hc4, hc5, hc6]
  rw [List.map_id']
  rw [sum_affine xs 3 2, sum_x_affine xs 3 2]
  have hdenpos := variance_denom_pos xs a b ha hb hab
  have hdenne : (xs.length : ℚ) * (List.map (fun x => x * x) xs).sum -
      xs.sum * xs.sum ≠ 0 := ne_of_gt hdenpos
  have hnpos : (0 : ℚ) < xs.length := by
    have : 0 < xs.length := by omega
    exact_mod_cast this
  have hnne : (xs.length : ℚ) ≠ 0 := ne_of_gt hnpos
  have hnum3 : (xs.length : ℚ) * (3 * (List.map (fun x => x * x) xs).sum +
        2 * xs.sum) - xs.sum * (3 * xs.sum + 2 * (xs.length : ℚ)) =
      3 * ((xs.length : ℚ) * (List.map (fun x => x * x) xs).sum -
        xs.sum * xs.sum) := by ring
  rw [hnum3, jsDiv_num_num_of_ne hdenne,
    mul_div_cancel_right₀ 3 hdenne]
  simp only [jsMul_num_num, jsSub_num_num]
  have hint : 3 * xs.sum + 2 * (xs.length : ℚ) - 3 * xs.sum =
      2 * (xs.length : ℚ) := by ring
  rw [hint, jsDiv_num_num_of_ne hnne, mul_div_cancel_right₀ 2 hnne]
  simp only [jsAdd_num_num, jsSub_num_num, jsSq_num, sub_self, zero_mul]
  have hfold : (List.map (fun _ : ℚ => num 0) xs).foldl jsAdd (num 0) =
      num 0 :=
    foldl_jsAdd_zeros _ 0 (by
      intro v hv
      obtain ⟨x, _, rfl⟩ := List.mem_map.mp hv
      rfl)
  rw [hfold]
  have hss : 0 < (List.map (fun x : ℚ =>
      (3 * x + 2 - (3 * xs.sum + 2 * (xs.length : ℚ)) / (xs.length : ℚ)) ^ 2)
        xs).sum := by
    have hmm : (List.map (fun x : ℚ =>
        (3 * x + 2 - (3 * xs.sum + 2 * (xs.length : ℚ)) / (xs.length : ℚ)) ^ 2)
          xs) =
        (List.map (fun y : ℚ =>
          (y - (3 * xs.sum + 2 * (xs.length : ℚ)) / (xs.length : ℚ)) ^ 2)
            (List.map (fun x : ℚ => 3 * x + 2) xs)) := by
      rw [List.map_map]
      rfl
    rw [hmm]
    refine sq_dev_sum_pos _ _ (3 * a + 2) (3 * b + 2)
      (List.mem_map.mpr ⟨a, ha, rfl⟩) (List.mem_map.mpr ⟨b, hb, rfl⟩) ?_
    intro hcon
    apply hab
    linarith
  rw [jsDiv_num_num_of_ne (ne_of_gt hss), zero_div, jsSub_num_num, sub_zero]

end Regression

/-- C3 counterexample: on the equal-length input lists x = [1, 1] and
y = [1, 2] (two samples, all x equal) linearRegression does not fail with
any error; it returns a result whose slope is NaN (as are the intercept and
R squared). -/
theorem c3_const_x_returns_nan_result :
    Regression.linearRegression [1, 1] [1, 2] =
      some ⟨JSNum.JSVal.nan, JSNum.JSVal.nan, JSNum.JSVal.nan⟩ ∧
    Regression.linearRegression [1, 1] [1, 2] ≠ none := by
  constructor
  · with_unfolding_all decide
  · with_unfolding_all decide

/-- C3 witness: the amended theorem applied to three samples sharing the x
value 2. -/
theorem linearRegression_const_x_witness :
    ([2, 2, 2] : List ℚ).length = ([1, 2, 3] : List ℚ).length ∧
    2 ≤ ([2, 2, 2] : List ℚ).length ∧
    (∀ x ∈ ([2, 2, 2] : List ℚ), x = 2) ∧
    Regression.linearRegression [2, 2, 2] [1, 2, 3] =
      some ⟨JSNum.JSVal.nan, JSNum.JSVal.nan, JSNum.JSVal.nan⟩ :=
  ⟨rfl, by norm_num, by simp,
   Regression.linearRegression_const_x [2, 2, 2] [1, 2, 3] 2 rfl
     (by norm_num) (by simp)⟩

/-- C7 witness: the exact-fit theorem applied to the samples x = [0, 1],
y = [2, 5]. -/
theorem linearRegression_exact_fit_witness :
    2 ≤ ([0, 1] : List ℚ).length ∧
    (0 : ℚ) ∈ ([0, 1] : List ℚ) ∧
    (1 : ℚ) ∈ ([0, 1] : List ℚ) ∧
    (0 : ℚ) ≠ 1 ∧
    Regression.linearRegression [0, 1]
        (([0, 1] : List ℚ).map fun x => 3 * x + 2) =
      some ⟨JSNum.JSVal.num 3, JSNum.JSVal.num 2, JSNum.JSVal.num 1⟩ :=
  ⟨by norm_num, by simp, by simp, by norm_num,
   Regression.linearRegression_exact_fit [0, 1] 0 1 (by norm_num)
     (by simp) (by simp) (by norm_num)⟩

/-- C6 witness: the period-count theorem applied to a release from rest at
angle 1/6 rad with pivot distance 15; the zero-velocity case leaves the
counter unchanged. -/
theorem c6_period_count_condition_witness :
    (⟨1 / 6, 0, 0, false, 0⟩ : Pendulum.PendState).angularVelocity = 0 ∧
    (Pendulum.updatePhysics (fun _ => 0) 15 Pendulum.animateDt
        ⟨1 / 6, 0, 0, false, 0⟩).completedPeriods =
      (⟨1 / 6, 0, 0, false, 0⟩ : Pendulum.PendState).completedPeriods :=
  ⟨rfl, (c6_period_count_condition (fun _ => 0) 15 Pendulum.animateDt
      ⟨1 / 6, 0, 0, false, 0⟩).2 rfl⟩
